import Mathlib

/-!
Verification of the breakout-strategy backtesting core.

Shallow embedding of the JavaScript sources:
  * `src/utils/dateUtils.js`   (class DateUtils)
  * `src/utils/mathUtils.js`   (class MathUtils)
  * `src/strategies/breakoutStrategy.js` (class BreakoutStrategy)
  * `src/backtest/tradeSimulator.js`     (class TradeSimulator)
  * `src/backtest/engine.js`             (class BacktestEngine)
  * `src/output/dataFormatter.js`        (class DataFormatter)

Modelling conventions:
  * JS numbers are embedded as `ℚ` (the code only adds, subtracts,
    multiplies, divides and compares; no float-specific behaviour is part
    of any claim). In `ℚ`, `x / 0 = 0` while JS yields `Infinity`/`NaN`;
    theorems that depend on a division therefore carry positivity
    hypotheses on the divisor.
  * Timestamps are `ℕ` (milliseconds since epoch, as delivered by the
    Binance API). The calendar date of a timestamp (`moment(..).format
    ("YYYY-MM-DD")` in a UTC environment) is embedded as the day index
    `t / msPerDay`; `moment(end).diff(start, "hours")` truncates toward
    zero, which for `start ≤ end` is the floor division used here.
  * JS `null` is `Option.none`; the JS truthiness test `!x` on a
    number-or-null is `jsTruthy` below (`null`, `undefined` and `0` are
    falsy).
  * Code paths that throw a `TypeError` (reading a property of
    `undefined`) are embedded as `Option.none` results.
  * JS objects used as string-keyed maps are embedded as association
    lists; `Object.keys(..).sort()` on "YYYY-MM-DD" keys (lexicographic =
    chronological) is `insertionSort (· ≤ ·)` of the deduplicated key
    list.
-/

namespace Backtest

/-- Milliseconds in one hour. -/
def msPerHour : ℕ := 3600000

/-- Milliseconds in one calendar day. -/
def msPerDay : ℕ := 86400000

/-- JS truthiness of a number-or-null value: `null` and `0` are falsy. -/
def jsTruthy : Option ℚ → Bool
  | none => false
  | some x => x ≠ 0

/-- One OHLCV candle (`Bar` of the spec); `openPrice` embeds the JS field
`open` (a Lean keyword). -/
structure Candle where
  openTime : ℕ
  openPrice : ℚ
  high : ℚ
  low : ℚ
  close : ℚ
  volume : ℚ
deriving DecidableEq, Repr

/-- Trade direction; the code uses the strings 'LONG' / 'SHORT'. -/
inductive Direction where
  | LONG
  | SHORT
deriving DecidableEq, Repr

/-- Breakout type; the code uses 'BREAKOUT_HIGH' / 'BREAKOUT_LOW'. -/
inductive BreakoutType where
  | BREAKOUT_HIGH
  | BREAKOUT_LOW
deriving DecidableEq, Repr

/-- Exit reason strings assigned by `TradeSimulator.checkExitConditions`
and the no-exit fallback of `simulateTradeSilent` ('END_OF_DAY' is the
code's name for what the spec calls DATA_EXHAUSTION). -/
inductive ExitReason where
  | TIME
  | SL
  | TP
  | END_OF_DAY
deriving DecidableEq, Repr

namespace DateUtils

/-- `DateUtils.getDateOnly`: calendar-day index of a millisecond
timestamp (UTC day boundary). -/
def getDateOnly (timestamp : ℕ) : ℕ := timestamp / msPerDay

/-- `DateUtils.getHoursDifference`: `moment(end).diff(start, "hours")`,
whole hours between two timestamps (truncated). For `endTime <
startTime` moment yields a negative count; `ℕ` subtraction yields `0`,
and both fail the `≥ maxHours` test of `shouldCloseByTime` whenever
`maxHours > 0`. -/
def getHoursDifference (startTime endTime : ℕ) : ℕ :=
  (endTime - startTime) / msPerHour

/-- `DateUtils.shouldCloseByTime`: true when at least `maxHours` whole
hours have passed between entry and the current candle. -/
def shouldCloseByTime (entryTime currentTime : ℕ) (maxHours : ℚ) : Bool :=
  (getHoursDifference entryTime currentTime : ℚ) ≥ maxHours

end DateUtils

namespace MathUtils

/-- `MathUtils.round`: `Math.round(number * 10^d) / 10^d`; JS
`Math.round x = ⌊x + 1/2⌋` (half rounds toward +∞). -/
def round (number : ℚ) (decimals : ℕ) : ℚ :=
  (⌊number * 10 ^ decimals + 1 / 2⌋ : ℚ) / 10 ^ decimals

/-- `MathUtils.calculateStopLoss`: converts percent-of-capital risk to a
price delta through the leverage and subtracts (LONG) or adds (SHORT) it
to the entry price. -/
def calculateStopLoss (entryPrice : ℚ) (direction : Direction)
    (leverage riskPercent : ℚ) : ℚ :=
  let priceRiskPercent := riskPercent / leverage
  let priceChange := priceRiskPercent / 100 * entryPrice
  if direction = Direction.LONG then entryPrice - priceChange
  else entryPrice + priceChange

/-- `MathUtils.calculateTakeProfit`: mirror image of
`calculateStopLoss`. -/
def calculateTakeProfit (entryPrice : ℚ) (direction : Direction)
    (leverage profitPercent : ℚ) : ℚ :=
  let priceProfitPercent := profitPercent / leverage
  let priceChange := priceProfitPercent / 100 * entryPrice
  if direction = Direction.LONG then entryPrice + priceChange
  else entryPrice - priceChange

/-- `MathUtils.calculateTradeResultPercent`: raw price-move percent,
signed by direction. -/
def calculateTradeResultPercent (entryPrice exitPrice : ℚ)
    (direction : Direction) : ℚ :=
  if direction = Direction.LONG then
    (exitPrice - entryPrice) / entryPrice * 100
  else
    (entryPrice - exitPrice) / entryPrice * 100

/-- `MathUtils.max` over a candle-bucket projection (`Math.max(...)`);
buckets produced by day-grouping are never empty, so the `[]` value is
irrelevant to any reachable call. -/
def maxList : List ℚ → ℚ
  | [] => 0
  | x :: xs => xs.foldl max x

/-- `MathUtils.min` over a candle-bucket projection (`Math.min(...)`). -/
def minList : List ℚ → ℚ
  | [] => 0
  | x :: xs => xs.foldl min x

end MathUtils

/-- `dailyLevels[date]` entry built by
`BreakoutStrategy.calculateDailyLevels`. -/
structure DayLevels where
  currentHigh : ℚ
  currentLow : ℚ
  previousHigh : Option ℚ
  previousLow : Option ℚ
  candles : List Candle
deriving DecidableEq, Repr

/-- The breakout record built by `BreakoutStrategy.detectBreakout`
(`direction`/`reason` stay `null` when the body placement is
ambiguous). -/
structure Breakout where
  btype : Option BreakoutType
  direction : Option Direction
  reason : Option String
  entryPrice : ℚ
deriving DecidableEq, Repr

/-- A trading signal as emitted by `BreakoutStrategy.shouldOpenTrade`. -/
structure Signal where
  date : ℕ
  btype : Option BreakoutType
  direction : Direction
  entryPrice : ℚ
  dailyHigh : ℚ
  dailyLow : ℚ
  reason : Option String
  candle : Candle
deriving DecidableEq, Repr

namespace BreakoutStrategy

/-- The deduplicated, lexicographically sorted list of calendar dates of
a candle list (`Object.keys(grouped).sort()` in
`calculateDailyLevels`). -/
def sortedDates (candles : List Candle) : List ℕ :=
  ((candles.map fun c => DateUtils.getDateOnly c.openTime).dedup).insertionSort (· ≤ ·)

/-- The bucket of `DateUtils.groupCandlesByDay` for one date: all candles
of that calendar date, in input order. -/
def dayCandles (candles : List Candle) (date : ℕ) : List Candle :=
  candles.filter fun c => DateUtils.getDateOnly c.openTime = date

/-- The loop body of `calculateDailyLevels`: walks the sorted date list
with the previous date (`dates[i-1]`, or null for `i = 0`) as
accumulator and builds each day's levels record. -/
def buildLevels (candles : List Candle) :
    Option ℕ → List ℕ → List (ℕ × DayLevels)
  | _, [] => []
  | prev, d :: rest =>
    let cur := dayCandles candles d
    (d, { currentHigh := MathUtils.maxList (cur.map fun c => c.high)
          currentLow := MathUtils.minList (cur.map fun c => c.low)
          previousHigh := prev.map fun p =>
            MathUtils.maxList ((dayCandles candles p).map fun c => c.high)
          previousLow := prev.map fun p =>
            MathUtils.minList ((dayCandles candles p).map fun c => c.low)
          candles := cur }) :: buildLevels candles (some d) rest

/-- `BreakoutStrategy.calculateDailyLevels`: ordered mapping date →
DayLevels (association list keyed by calendar date). -/
def calculateDailyLevels (candles : List Candle) : List (ℕ × DayLevels) :=
  buildLevels candles none (sortedDates candles)

/-- `BreakoutStrategy.detectBreakout`: classifies one candle against the
previous day's high/low. The JS guard `!dailyHigh || !dailyLow` treats
both `null` and `0` as "no previous day". -/
def detectBreakout (candle : Candle) (dailyHigh dailyLow : Option ℚ) :
    Option Breakout :=
  if ¬ (jsTruthy dailyHigh ∧ jsTruthy dailyLow) then none
  else
    let hv := dailyHigh.getD 0
    let lv := dailyLow.getD 0
    if candle.high > hv then
      some { btype := some BreakoutType.BREAKOUT_HIGH
             direction :=
               if candle.openPrice > hv ∧ candle.close > hv then
                 some Direction.LONG
               else if candle.openPrice < hv ∧ candle.close < hv then
                 some Direction.SHORT
               else none
             reason :=
               if candle.openPrice > hv ∧ candle.close > hv then
                 some "Body above previous high"
               else if candle.openPrice < hv ∧ candle.close < hv then
                 some "Body below previous high, wick touched above"
               else none
             entryPrice := candle.close }
    else if candle.low < lv then
      some { btype := some BreakoutType.BREAKOUT_LOW
             direction :=
               if candle.openPrice < lv ∧ candle.close < lv then
                 some Direction.SHORT
               else if candle.openPrice > lv ∧ candle.close > lv then
                 some Direction.LONG
               else none
             reason :=
               if candle.openPrice < lv ∧ candle.close < lv then
                 some "Body below previous low"
               else if candle.openPrice > lv ∧ candle.close > lv then
                 some "Body above previous low, wick touched below"
               else none
             entryPrice := candle.close }
    else none

/-- `BreakoutStrategy.shouldOpenTrade`: emits a Signal when the date has
no trade yet, previous-day levels exist and are truthy, and
`detectBreakout` yields a direction. -/
def shouldOpenTrade (dailyLevels : List (ℕ × DayLevels)) (candle : Candle)
    (currentDate : ℕ) (todayTrades : List Signal) : Option Signal :=
  if todayTrades.length > 0 then none
  else
    match dailyLevels.lookup currentDate with
    | none => none
    | some dayData =>
      if ¬ (jsTruthy dayData.previousHigh ∧ jsTruthy dayData.previousLow)
      then none
      else
        match detectBreakout candle dayData.previousHigh dayData.previousLow
        with
        | some breakout =>
          match breakout.direction with
          | some dir =>
            some { date := currentDate
                   btype := breakout.btype
                   direction := dir
                   entryPrice := breakout.entryPrice
                   dailyHigh := dayData.previousHigh.getD 0
                   dailyLow := dayData.previousLow.getD 0
                   reason := breakout.reason
                   candle := candle }
          | none => none
        | none => none

/-- The candle loop of `BreakoutStrategy.processCandles`: `marked` is the
set of dates already holding a trade (`dailyTrades`); a marked date is
skipped (`continue`), an emitted signal marks its date. -/
def processLoop (dailyLevels : List (ℕ × DayLevels)) :
    List ℕ → List Candle → List Signal
  | _, [] => []
  | marked, c :: rest =>
    let currentDate := DateUtils.getDateOnly c.openTime
    if currentDate ∈ marked then processLoop dailyLevels marked rest
    else
      match shouldOpenTrade dailyLevels c currentDate [] with
      | some signal =>
        signal :: processLoop dailyLevels (currentDate :: marked) rest
      | none => processLoop dailyLevels marked rest

/-- `BreakoutStrategy.processCandles`: computes the daily levels, then
walks the candles emitting at most one signal per calendar date. -/
def processCandles (candles : List Candle) : List Signal :=
  processLoop (calculateDailyLevels candles) [] candles

end BreakoutStrategy

/-- Constructor parameters of `TradeSimulator` / `BacktestEngine`. -/
structure Config where
  initialCapital : ℚ
  leverage : ℚ
  maxHours : ℚ
  stopLossPercent : ℚ
  takeProfitPercent : ℚ
deriving DecidableEq, Repr

/-- A trade record as built by `simulateTradeSilent`; exit fields start
`null` and are assigned exactly once when the trade closes. -/
structure Trade where
  id : ℕ
  signal : Signal
  entryPrice : ℚ
  entryTime : ℕ
  direction : Direction
  positionSize : ℚ
  leverage : ℚ
  stopLoss : ℚ
  takeProfit : ℚ
  exitPrice : Option ℚ
  exitTime : Option ℕ
  exitReason : Option ExitReason
  resultUSD : ℚ
  resultPercent : ℚ
  durationHours : ℕ
deriving DecidableEq, Repr

/-- One entry of `this.dailyResults` (`recordDailyResult` /
`recordNoTradeDay`). -/
structure DailyResult where
  tradeExecuted : Bool
  trade : Option Trade
  reason : Option String
  balanceBefore : ℚ
  balanceAfter : ℚ
  dailyReturn : ℚ
deriving DecidableEq, Repr

/-- The mutable state of a `TradeSimulator` instance. -/
structure SimState where
  currentBalance : ℚ
  trades : List Trade
  dailyResults : List (ℕ × DailyResult)
deriving DecidableEq, Repr

/-- Aggregate statistics returned by `TradeSimulator.getTradingStats`. -/
structure TradingStats where
  totalTrades : ℕ
  winningTrades : ℕ
  losingTrades : ℕ
  winRate : ℚ
  initialCapital : ℚ
  finalBalance : ℚ
  totalReturn : ℚ
  totalReturnPercent : ℚ
  avgWin : ℚ
  avgLoss : ℚ
deriving DecidableEq, Repr

namespace TradeSimulator

/-- Fresh simulator state (`constructor`). -/
def initState (cfg : Config) : SimState :=
  { currentBalance := cfg.initialCapital, trades := [], dailyResults := [] }

/-- `TradeSimulator.calculateStopLoss` (delegates to MathUtils with the
configured leverage and stop-loss percent). -/
def calculateStopLoss (cfg : Config) (entryPrice : ℚ)
    (direction : Direction) : ℚ :=
  MathUtils.calculateStopLoss entryPrice direction cfg.leverage
    cfg.stopLossPercent

/-- `TradeSimulator.calculateTakeProfit`. -/
def calculateTakeProfit (cfg : Config) (entryPrice : ℚ)
    (direction : Direction) : ℚ :=
  MathUtils.calculateTakeProfit entryPrice direction cfg.leverage
    cfg.takeProfitPercent

/-- The trade object literal at the top of `simulateTradeSilent` /
`simulateTrade`: exit fields null, position size taken from the live
balance. -/
def initTrade (cfg : Config) (st : SimState) (signal : Signal) : Trade :=
  { id := st.trades.length + 1
    signal := signal
    entryPrice := signal.entryPrice
    entryTime := signal.candle.openTime
    direction := signal.direction
    positionSize := st.currentBalance * cfg.leverage
    leverage := cfg.leverage
    stopLoss := calculateStopLoss cfg signal.entryPrice signal.direction
    takeProfit := calculateTakeProfit cfg signal.entryPrice signal.direction
    exitPrice := none
    exitTime := none
    exitReason := none
    resultUSD := 0
    resultPercent := 0
    durationHours := 0 }

/-- `TradeSimulator.checkExitConditions`: TIME, then SL, then TP, first
match wins; SL/TP close exactly at the threshold price, TIME at the
candle's close. -/
def checkExitConditions (cfg : Config) (candle : Candle) (trade : Trade) :
    Option (ℚ × ExitReason) :=
  if DateUtils.shouldCloseByTime trade.entryTime candle.openTime cfg.maxHours
  then some (candle.close, ExitReason.TIME)
  else if trade.direction = Direction.LONG ∧ candle.low ≤ trade.stopLoss
  then some (trade.stopLoss, ExitReason.SL)
  else if trade.direction = Direction.SHORT ∧ candle.high ≥ trade.stopLoss
  then some (trade.stopLoss, ExitReason.SL)
  else if trade.direction = Direction.LONG ∧ candle.high ≥ trade.takeProfit
  then some (trade.takeProfit, ExitReason.TP)
  else if trade.direction = Direction.SHORT ∧ candle.low ≤ trade.takeProfit
  then some (trade.takeProfit, ExitReason.TP)
  else none

/-- `TradeSimulator.calculateTradeResult`: price-move percent scaled by
the live (pre-update) balance and leverage; both outputs rounded to two
decimals. -/
def calculateTradeResult (cfg : Config) (st : SimState) (trade : Trade) :
    ℚ × ℚ :=
  let pricePercent := MathUtils.calculateTradeResultPercent trade.entryPrice
    (trade.exitPrice.getD 0) trade.direction
  let resultUSD := pricePercent / 100 * st.currentBalance * cfg.leverage
  let capitalPercent := pricePercent * cfg.leverage
  (MathUtils.round resultUSD 2, MathUtils.round capitalPercent 2)

/-- The exit-scan loop of `simulateTradeSilent`: first candle whose
`checkExitConditions` is non-null, together with that exit condition. -/
def findExit (cfg : Config) (trade : Trade) :
    List Candle → Option (Candle × (ℚ × ExitReason))
  | [] => none
  | c :: rest =>
    match checkExitConditions cfg c trade with
    | some cond => some (c, cond)
    | none => findExit cfg trade rest

/-- `TradeSimulator.updateBalance`: add the trade result, then round the
balance to two decimals (once). -/
def updateBalance (st : SimState) (tradeResult : ℚ) : ℚ :=
  MathUtils.round (st.currentBalance + tradeResult) 2

/-- The tail of `simulateTradeSilent` after the trade closed:
`updateBalance`, `trades.push(trade)` and `recordDailyResult(signal.date,
trade)` (whose `balanceBefore` is the updated balance minus the trade
result). -/
def finishTrade (st : SimState) (signal : Signal)
    (trade : Trade) : Trade × SimState :=
  let newBalance := updateBalance st trade.resultUSD
  let dr : DailyResult :=
    { tradeExecuted := true
      trade := some trade
      reason := none
      balanceBefore := newBalance - trade.resultUSD
      balanceAfter := newBalance
      dailyReturn := trade.resultUSD }
  (trade, { currentBalance := newBalance
            trades := st.trades ++ [trade]
            dailyResults := st.dailyResults ++ [(signal.date, dr)] })

/-- `TradeSimulator.simulateTradeSilent`: scan the remaining candles for
the first exit condition; the fallback guard is the JS truthiness test
`if (!trade.exitPrice)`, so it fires when the loop assigned nothing and
also when the assigned exit price is exactly 0; the fallback closes at
the last remaining candle's close with reason 'END_OF_DAY'. On an empty
remaining-candle list the fallback reads the `close` property of
`remainingCandles[remainingCandles.length - 1]`, which is `undefined` —
a TypeError, embedded as `none`. -/
def simulateTradeSilent (cfg : Config) (st : SimState) (signal : Signal)
    (remainingCandles : List Candle) : Option (Trade × SimState) :=
  let t0 := initTrade cfg st signal
  let t1 :=
    match findExit cfg t0 remainingCandles with
    | some (candle, cond) =>
      let t := { t0 with
        exitPrice := some cond.1
        exitTime := some candle.openTime
        exitReason := some cond.2
        durationHours := DateUtils.getHoursDifference t0.entryTime
          candle.openTime }
      let result := calculateTradeResult cfg st t
      { t with resultUSD := result.1, resultPercent := result.2 }
    | none => t0
  if jsTruthy t1.exitPrice then some (finishTrade st signal t1)
  else
    match remainingCandles.getLast? with
    | none => none
    | some lastCandle =>
      let t2 := { t1 with
        exitPrice := some lastCandle.close
        exitTime := some lastCandle.openTime
        exitReason := some ExitReason.END_OF_DAY
        durationHours := DateUtils.getHoursDifference t1.entryTime
          lastCandle.openTime }
      let result := calculateTradeResult cfg st t2
      some (finishTrade st signal
        { t2 with resultUSD := result.1, resultPercent := result.2 })

/-- `TradeSimulator.getTradingStats`. -/
def getTradingStats (cfg : Config) (st : SimState) : TradingStats :=
  let winningTrades := st.trades.filter fun t => t.resultUSD > 0
  let losingTrades := st.trades.filter fun t => t.resultUSD < 0
  let totalReturn := st.currentBalance - cfg.initialCapital
  let totalReturnPercent := totalReturn / cfg.initialCapital * 100
  let winRate :=
    if st.trades.length > 0 then
      (winningTrades.length : ℚ) / st.trades.length * 100
    else 0
  let avgWin :=
    if winningTrades.length > 0 then
      (winningTrades.map fun t => t.resultUSD).sum / winningTrades.length
    else 0
  let avgLoss :=
    if losingTrades.length > 0 then
      |(losingTrades.map fun t => t.resultUSD).sum / losingTrades.length|
    else 0
  { totalTrades := st.trades.length
    winningTrades := winningTrades.length
    losingTrades := losingTrades.length
    winRate := MathUtils.round winRate 2
    initialCapital := cfg.initialCapital
    finalBalance := st.currentBalance
    totalReturn := MathUtils.round totalReturn 2
    totalReturnPercent := MathUtils.round totalReturnPercent 2
    avgWin := MathUtils.round avgWin 2
    avgLoss := MathUtils.round avgLoss 2 }

end TradeSimulator

namespace BacktestEngine

/-- `BacktestEngine.getAllDays`: sorted distinct calendar dates of the
candle list. -/
def getAllDays (candles : List Candle) : List ℕ :=
  ((candles.map fun c => DateUtils.getDateOnly c.openTime).dedup).insertionSort (· ≤ ·)

/-- The per-day signal loop of `simulateAllTradesWithLogs`: for each
signal of the day, locate its entry candle, slice the candles strictly
after it and run the silent simulator (a missing entry candle is
`continue`d over). -/
def simulateDaySignals (cfg : Config) (candles : List Candle) :
    SimState → List Signal → Option SimState
  | st, [] => some st
  | st, signal :: rest =>
    match candles.findIdx? fun c => c.openTime = signal.candle.openTime with
    | none => simulateDaySignals cfg candles st rest
    | some entryCandleIndex =>
      let remainingCandles := candles.drop (entryCandleIndex + 1)
      match TradeSimulator.simulateTradeSilent cfg st signal
        remainingCandles with
      | none => none
      | some (_, st') => simulateDaySignals cfg candles st' rest

/-- `BacktestEngine.simulateAllTradesWithLogs`: walk the sorted day list;
each day's signals (`signalsByDay[day]`) are simulated in order. -/
def simulateAllTrades (cfg : Config) (candles : List Candle)
    (signals : List Signal) : SimState → List ℕ → Option SimState
  | st, [] => some st
  | st, day :: restDays =>
    let daySignals := signals.filter fun s => s.date = day
    match simulateDaySignals cfg candles st daySignals with
    | none => none
    | some st' => simulateAllTrades cfg candles signals st' restDays

/-- `BacktestEngine.runBacktest` restricted to the core pipeline: signal
detection followed by sequential trade simulation and the aggregate
statistics (console display and JSON export are external collaborators).
-/
def runBacktestCore (cfg : Config) (candles : List Candle) :
    Option (List Signal × SimState × TradingStats) :=
  let signals := BreakoutStrategy.processCandles candles
  match simulateAllTrades cfg candles signals (TradeSimulator.initState cfg)
    (getAllDays candles) with
  | none => none
  | some st => some (signals, st, TradeSimulator.getTradingStats cfg st)

end BacktestEngine

namespace DataFormatter

/-- `DataFormatter.calculateMaxDrawdown` ("simplified implementation"):
three times the absolute average loss. -/
def calculateMaxDrawdown (stats : TradingStats) : ℚ :=
  |stats.avgLoss| * 3

/-- `DataFormatter.calculateMaxDrawdownPercent`. -/
def calculateMaxDrawdownPercent (stats : TradingStats) : ℚ :=
  calculateMaxDrawdown stats / stats.initialCapital * 100

/-- `DataFormatter.formatSummary`: the exported `summary` object as the
ordered list of its field names and (rational) values — exactly the
fields the code writes. -/
def formatSummaryFields (stats : TradingStats) : List (String × ℚ) :=
  [ ("totalTrades", (stats.totalTrades : ℚ)),
    ("winningTrades", (stats.winningTrades : ℚ)),
    ("losingTrades", (stats.losingTrades : ℚ)),
    ("winRate", stats.winRate),
    ("totalReturn", stats.totalReturn),
    ("totalReturnPercent", stats.totalReturnPercent),
    ("finalBalance", stats.finalBalance),
    ("avgWin", stats.avgWin),
    ("avgLoss", stats.avgLoss),
    ("maxDrawdown", calculateMaxDrawdown stats),
    ("maxDrawdownPercent", calculateMaxDrawdownPercent stats) ]

end DataFormatter

namespace SpecModel

/-- The spec's exit-evaluation design: an ordered list of (predicate,
outcome) pairs — TIME at the candle's close, then SL at the stop-loss
price, then TP at the take-profit price (spec §4.4 and design note
§9). -/
def specExitChecks (cfg : Config) (trade : Trade) :
    List ((Candle → Bool) × (Candle → ℚ × ExitReason)) :=
  [ (fun c => DateUtils.shouldCloseByTime trade.entryTime c.openTime
        cfg.maxHours,
     fun c => (c.close, ExitReason.TIME)),
    (fun c => decide
        ((trade.direction = Direction.LONG ∧ c.low ≤ trade.stopLoss) ∨
         (trade.direction = Direction.SHORT ∧ c.high ≥ trade.stopLoss)),
     fun _ => (trade.stopLoss, ExitReason.SL)),
    (fun c => decide
        ((trade.direction = Direction.LONG ∧ c.high ≥ trade.takeProfit) ∨
         (trade.direction = Direction.SHORT ∧ c.low ≤ trade.takeProfit)),
     fun _ => (trade.takeProfit, ExitReason.TP)) ]

/-- Top-down evaluation of an ordered (predicate, outcome) list: the
first predicate that holds decides; later entries are not consulted. -/
def evalChecks :
    List ((Candle → Bool) × (Candle → ℚ × ExitReason)) → Candle →
    Option (ℚ × ExitReason)
  | [], _ => none
  | (p, outcome) :: rest, c =>
    if p c then some (outcome c) else evalChecks rest c

end SpecModel

end Backtest


namespace Backtest

/-- Concrete configuration fixture for witnesses (the constructor
defaults of `TradeSimulator`). -/
def cfgEx : Config := ⟨100, 5, 4, 10, 20⟩

/-- Witness fixture: a day-0 candle. -/
def candleD0a : Candle := ⟨0, 100, 110, 90, 100, 1⟩

/-- Witness fixture: a second day-0 candle one hour later. -/
def candleD0b : Candle := ⟨msPerHour, 100, 110, 90, 100, 1⟩

/-- Witness fixture: a day-1 candle whose body closes above the previous
day's high (a LONG breakout). -/
def candleBreak : Candle := ⟨msPerDay, 111, 115, 105, 112, 1⟩

/-- Witness fixture: a LONG signal at entry price 100. -/
def sigEx : Signal :=
  ⟨1, some BreakoutType.BREAKOUT_HIGH, Direction.LONG, 100, 110, 90, none,
   candleBreak⟩

/-- Witness fixture: a candle one hour after `sigEx` that reaches the
take-profit of `sigEx` under `cfgEx` without touching the stop-loss. -/
def barTP : Candle := ⟨msPerDay + msPerHour, 100, 209/2, 99, 104, 1⟩

end Backtest

namespace Backtest

/-- Helper: the exit scan returns `none` exactly when no remaining candle
satisfies an exit condition. -/
theorem findExit_eq_none_iff (cfg : Config) (t : Trade) :
    ∀ bars, TradeSimulator.findExit cfg t bars = none ↔
      ∀ c ∈ bars, TradeSimulator.checkExitConditions cfg c t = none := by
  intro bars
  induction bars with
  | nil => simp [TradeSimulator.findExit]
  | cons c rest ih =>
    simp only [TradeSimulator.findExit]
    cases hc : TradeSimulator.checkExitConditions cfg c t with
    | some cond => simp [hc]
    | none => simpa [hc] using ih

/-- Helper: a freshly opened trade has no exit price yet. -/
theorem initTrade_exitPrice (cfg : Config) (st : SimState) (sig : Signal) :
    (TradeSimulator.initTrade cfg st sig).exitPrice = none := rfl

/-- C10. For a signal whose entry bar is the last bar of the input, the
remaining-bar list passed to the simulator is empty and the no-exit
fallback reads the last element of that empty array
(`remainingCandles[remainingCandles.length - 1].close` of `undefined`,
a TypeError, embedded as `none`): the simulator yields a well-formed
closed trade exactly when at least one bar follows the entry bar. -/
theorem simulateTradeSilent_none_iff_no_remaining_bars :
    ∀ (cfg : Config) (st : SimState) (sig : Signal) (bars : List Candle),
      TradeSimulator.simulateTradeSilent cfg st sig bars = none ↔ bars = [] := by
  intro cfg st sig bars
  constructor
  · intro hnone
    by_contra hne
    have hlast : bars.getLast? = some (bars.getLast hne) :=
      List.getLast?_eq_getLast bars hne
    rcases hfe : TradeSimulator.findExit cfg (TradeSimulator.initTrade cfg st sig) bars with _ | ⟨c, cond⟩
    · rw [TradeSimulator.simulateTradeSilent] at hnone
      simp [hfe, hlast, initTrade_exitPrice, jsTruthy] at hnone
    · rw [TradeSimulator.simulateTradeSilent] at hnone
      by_cases h0 : cond.1 = 0
      · simp [hfe, hlast, h0, jsTruthy] at hnone
      · simp [hfe, h0, jsTruthy] at hnone
  · rintro rfl
    rfl

end Backtest

namespace Backtest

/-- C1. For every signal simulated against a non-empty remaining-bar
list, the produced trade carries exactly one exit reason from
{TIME, SL, TP, END_OF_DAY} (the single `exitReason` field is always
assigned — never left null), and whenever no remaining bar triggers any
exit check the trade closes at the last remaining bar's close with
reason END_OF_DAY — the code's name for the spec's DATA_EXHAUSTION
("end of supplied data"). -/
theorem simulateTradeSilent_exit_reason_total (cfg : Config)
    (st : SimState) (sig : Signal) (bars : List Candle) (h : bars ≠ []) :
    ∃ t st', TradeSimulator.simulateTradeSilent cfg st sig bars =
        some (t, st') ∧
      (∃ r : ExitReason, t.exitReason = some r) ∧
      ((∀ c ∈ bars, TradeSimulator.checkExitConditions cfg c
          (TradeSimulator.initTrade cfg st sig) = none) →
        t.exitReason = some ExitReason.END_OF_DAY ∧
        t.exitPrice = some (bars.getLast h).close) := by
  have hlast : bars.getLast? = some (bars.getLast h) :=
    List.getLast?_eq_getLast bars h
  rcases hfe : TradeSimulator.findExit cfg (TradeSimulator.initTrade cfg st sig) bars
    with _ | ⟨c, cond⟩
  · simp only [TradeSimulator.simulateTradeSilent, hfe, hlast,
      initTrade_exitPrice, jsTruthy, TradeSimulator.finishTrade,
      Bool.false_eq_true, if_false, Option.some.injEq, Prod.mk.injEq]
    exact ⟨_, _, ⟨rfl, rfl⟩, ⟨ExitReason.END_OF_DAY, rfl⟩,
      fun _ => ⟨rfl, rfl⟩⟩
  · by_cases h0 : cond.1 = 0
    · simp only [TradeSimulator.simulateTradeSilent, hfe, h0, hlast, jsTruthy,
        ne_eq, decide_not, eq_self_iff_true, decide_True, Bool.not_true,
        Bool.false_eq_true, if_false, TradeSimulator.finishTrade,
        Option.some.injEq, Prod.mk.injEq]
      refine ⟨_, _, ⟨rfl, rfl⟩, ⟨ExitReason.END_OF_DAY, rfl⟩,
        fun hnone => absurd hfe ?_⟩
      rw [(findExit_eq_none_iff cfg _ bars).mpr hnone]
      exact Option.noConfusion
    · simp only [TradeSimulator.simulateTradeSilent, hfe, jsTruthy, ne_eq,
        h0, not_false_iff, decide_True, eq_self_iff_true, if_true,
        TradeSimulator.finishTrade, Option.some.injEq, Prod.mk.injEq]
      refine ⟨_, _, ⟨rfl, rfl⟩, ⟨cond.2, rfl⟩, fun hnone => absurd hfe ?_⟩
      rw [(findExit_eq_none_iff cfg _ bars).mpr hnone]
      exact Option.noConfusion

/-- C2. The per-bar exit decision of the simulator is exactly the
top-down evaluation of the spec's ordered (predicate, outcome) list:
TIME first (closing at the current bar's close), then SL (LONG when
`bar.low ≤ stopLoss`, SHORT when `bar.high ≥ stopLoss`, closing exactly
at the stopLoss price), then TP (closing exactly at the takeProfit
price); the first matching check decides and later checks are not
consulted. -/
theorem checkExitConditions_eq_spec_priority (cfg : Config) (t : Trade)
    (c : Candle) :
    TradeSimulator.checkExitConditions cfg c t =
      SpecModel.evalChecks (SpecModel.specExitChecks cfg t) c := by
  rcases htd : t.direction
  all_goals
    simp [TradeSimulator.checkExitConditions, SpecModel.evalChecks,
      SpecModel.specExitChecks, htd]

/-- C3. Stop-loss and take-profit geometry: the price delta is
(percent / leverage) / 100 × entryPrice, LONG gets `entry − delta` /
`entry + delta` and SHORT the mirror image; the simulator installs
exactly these prices on every trade it opens; the spec's worked example
(entry 100, LONG, leverage 5, SL 10 %, TP 20 % ⇒ 98 / 104) holds; and
for positive entry, leverage and percents the two prices strictly
bracket the entry on the direction's correct side. -/
theorem stopLoss_takeProfit_geometry :
    (∀ e lev p : ℚ,
        MathUtils.calculateStopLoss e Direction.LONG lev p =
          e - p / lev / 100 * e ∧
        MathUtils.calculateStopLoss e Direction.SHORT lev p =
          e + p / lev / 100 * e ∧
        MathUtils.calculateTakeProfit e Direction.LONG lev p =
          e + p / lev / 100 * e ∧
        MathUtils.calculateTakeProfit e Direction.SHORT lev p =
          e - p / lev / 100 * e) ∧
    (∀ (cfg : Config) (st : SimState) (sig : Signal),
        (TradeSimulator.initTrade cfg st sig).stopLoss =
          MathUtils.calculateStopLoss sig.entryPrice sig.direction
            cfg.leverage cfg.stopLossPercent ∧
        (TradeSimulator.initTrade cfg st sig).takeProfit =
          MathUtils.calculateTakeProfit sig.entryPrice sig.direction
            cfg.leverage cfg.takeProfitPercent) ∧
    MathUtils.calculateStopLoss 100 Direction.LONG 5 10 = 98 ∧
    MathUtils.calculateTakeProfit 100 Direction.LONG 5 20 = 104 ∧
    ∀ e lev slp tpp : ℚ, 0 < e → 0 < lev → 0 < slp → 0 < tpp →
      (MathUtils.calculateStopLoss e Direction.LONG lev slp < e ∧
       e < MathUtils.calculateTakeProfit e Direction.LONG lev tpp) ∧
      (MathUtils.calculateTakeProfit e Direction.SHORT lev tpp < e ∧
       e < MathUtils.calculateStopLoss e Direction.SHORT lev slp) := by
  refine ⟨fun e lev p => ⟨rfl, rfl, rfl, rfl⟩,
    fun cfg st sig => ⟨rfl, rfl⟩,
    by norm_num [MathUtils.calculateStopLoss],
    by norm_num [MathUtils.calculateTakeProfit],
    fun e lev slp tpp he hlev hs ht => ?_⟩
  have hds : 0 < slp / lev / 100 * e :=
    mul_pos (div_pos (div_pos hs hlev) (by norm_num)) he
  have hdt : 0 < tpp / lev / 100 * e :=
    mul_pos (div_pos (div_pos ht hlev) (by norm_num)) he
  refine ⟨⟨?_, ?_⟩, ?_, ?_⟩ <;>
    simp [MathUtils.calculateStopLoss, MathUtils.calculateTakeProfit] <;>
    linarith

/-- Witness for C3 at entry 101, leverage 4, SL 7 %, TP 9 %. -/
theorem stopLoss_takeProfit_geometry_witness :
    MathUtils.calculateStopLoss 101 Direction.LONG 4 7 < 101 ∧
    101 < MathUtils.calculateTakeProfit 101 Direction.LONG 4 9 :=
  (stopLoss_takeProfit_geometry.2.2.2.2 101 4 7 9 (by norm_num)
    (by norm_num) (by norm_num) (by norm_num)).1

end Backtest

namespace Backtest

/-- Witness for C1: a take-profit bar follows the entry bar of `sigEx`. -/
theorem simulateTradeSilent_exit_reason_total_witness :
    ∃ t st', TradeSimulator.simulateTradeSilent cfgEx
        (TradeSimulator.initState cfgEx) sigEx [barTP] = some (t, st') ∧
      (∃ r : ExitReason, t.exitReason = some r) ∧
      ((∀ c ∈ [barTP], TradeSimulator.checkExitConditions cfgEx c
          (TradeSimulator.initTrade cfgEx (TradeSimulator.initState cfgEx)
            sigEx) = none) →
        t.exitReason = some ExitReason.END_OF_DAY ∧
        t.exitPrice = some barTP.close) :=
  simulateTradeSilent_exit_reason_total cfgEx (TradeSimulator.initState cfgEx)
    sigEx [barTP] (List.cons_ne_nil _ _)

/-- C4. Every closed trade's recorded results follow the spec formulas:
the price-move percent is `(exit − entry)/entry × 100` for LONG and
`(entry − exit)/entry × 100` for SHORT, `resultUSD` is that percent over
100 times the account balance at entry times the leverage, and
`resultPercent` is the percent times the leverage, each rounded to two
decimals. -/
theorem tradeResult_formula (cfg : Config) (st : SimState) (sig : Signal)
    (bars : List Candle) (h : bars ≠ []) (_he : 0 < sig.entryPrice) :
    ∃ t st', TradeSimulator.simulateTradeSilent cfg st sig bars =
        some (t, st') ∧
      t.resultUSD = MathUtils.round
        ((if t.direction = Direction.LONG then
            (t.exitPrice.getD 0 - t.entryPrice) / t.entryPrice * 100
          else
            (t.entryPrice - t.exitPrice.getD 0) / t.entryPrice * 100) / 100 *
          st.currentBalance * cfg.leverage) 2 ∧
      t.resultPercent = MathUtils.round
        ((if t.direction = Direction.LONG then
            (t.exitPrice.getD 0 - t.entryPrice) / t.entryPrice * 100
          else
            (t.entryPrice - t.exitPrice.getD 0) / t.entryPrice * 100) *
          cfg.leverage) 2 := by
  have hlast : bars.getLast? = some (bars.getLast h) :=
    List.getLast?_eq_getLast bars h
  rcases hfe : TradeSimulator.findExit cfg (TradeSimulator.initTrade cfg st sig) bars
    with _ | ⟨c, cond⟩
  · simp only [TradeSimulator.simulateTradeSilent, hfe, hlast,
      initTrade_exitPrice, jsTruthy, Bool.false_eq_true, if_false,
      TradeSimulator.finishTrade, Option.some.injEq, Prod.mk.injEq]
    refine ⟨_, _, ⟨rfl, rfl⟩, ?_, ?_⟩ <;>
      simp [TradeSimulator.calculateTradeResult,
        MathUtils.calculateTradeResultPercent]
  · by_cases h0 : cond.1 = 0
    · simp only [TradeSimulator.simulateTradeSilent, hfe, h0, hlast, jsTruthy,
        ne_eq, decide_not, eq_self_iff_true, decide_True, Bool.not_true,
        Bool.false_eq_true, if_false, TradeSimulator.finishTrade,
        Option.some.injEq, Prod.mk.injEq]
      refine ⟨_, _, ⟨rfl, rfl⟩, ?_, ?_⟩ <;>
        simp [TradeSimulator.calculateTradeResult,
          MathUtils.calculateTradeResultPercent]
    · simp only [TradeSimulator.simulateTradeSilent, hfe, jsTruthy, ne_eq,
        h0, not_false_iff, decide_True, eq_self_iff_true, if_true,
        TradeSimulator.finishTrade, Option.some.injEq, Prod.mk.injEq]
      refine ⟨_, _, ⟨rfl, rfl⟩, ?_, ?_⟩ <;>
        simp [TradeSimulator.calculateTradeResult,
          MathUtils.calculateTradeResultPercent]

/-- Witness for C4 on the `sigEx`/`barTP` fixture. -/
theorem tradeResult_formula_witness :
    ∃ t st', TradeSimulator.simulateTradeSilent cfgEx
        (TradeSimulator.initState cfgEx) sigEx [barTP] = some (t, st') ∧
      t.resultUSD = MathUtils.round
        ((if t.direction = Direction.LONG then
            (t.exitPrice.getD 0 - t.entryPrice) / t.entryPrice * 100
          else
            (t.entryPrice - t.exitPrice.getD 0) / t.entryPrice * 100) / 100 *
          (TradeSimulator.initState cfgEx).currentBalance * cfgEx.leverage) 2 ∧
      t.resultPercent = MathUtils.round
        ((if t.direction = Direction.LONG then
            (t.exitPrice.getD 0 - t.entryPrice) / t.entryPrice * 100
          else
            (t.entryPrice - t.exitPrice.getD 0) / t.entryPrice * 100) *
          cfgEx.leverage) 2 :=
  tradeResult_formula cfgEx (TradeSimulator.initState cfgEx) sigEx [barTP]
    (List.cons_ne_nil _ _) (by norm_num [sigEx])

/-- C5. For every simulated trade the recorded daily outcome satisfies
`balanceAfter = balanceBefore + resultUSD` and `balanceAfter` is the new
running balance; the running balance is updated by adding `resultUSD`
and rounding to two decimals exactly once; and the trade's position size
is the entry-time balance times the leverage — so a subsequent trade,
entering on the state this one leaves, sizes its position from the
rounded balance. -/
theorem balance_update_and_daily_record (cfg : Config) (st : SimState)
    (sig : Signal) (bars : List Candle) (h : bars ≠ []) :
    ∃ t st' dr, TradeSimulator.simulateTradeSilent cfg st sig bars =
        some (t, st') ∧
      st'.currentBalance = MathUtils.round (st.currentBalance + t.resultUSD) 2 ∧
      st'.dailyResults = st.dailyResults ++ [(sig.date, dr)] ∧
      dr.balanceAfter = dr.balanceBefore + t.resultUSD ∧
      dr.balanceAfter = st'.currentBalance ∧
      t.positionSize = st.currentBalance * cfg.leverage := by
  have hlast : bars.getLast? = some (bars.getLast h) :=
    List.getLast?_eq_getLast bars h
  rcases hfe : TradeSimulator.findExit cfg (TradeSimulator.initTrade cfg st sig) bars
    with _ | ⟨c, cond⟩
  · simp only [TradeSimulator.simulateTradeSilent, hfe, hlast,
      initTrade_exitPrice, jsTruthy, Bool.false_eq_true, if_false,
      TradeSimulator.finishTrade, TradeSimulator.updateBalance,
      Option.some.injEq, Prod.mk.injEq]
    exact ⟨_, _, _, ⟨rfl, rfl⟩, rfl, rfl, by ring, rfl, rfl⟩
  · by_cases h0 : cond.1 = 0
    · simp only [TradeSimulator.simulateTradeSilent, hfe, h0, hlast, jsTruthy,
        ne_eq, decide_not, eq_self_iff_true, decide_True, Bool.not_true,
        Bool.false_eq_true, if_false, TradeSimulator.finishTrade,
        TradeSimulator.updateBalance, Option.some.injEq, Prod.mk.injEq]
      exact ⟨_, _, _, ⟨rfl, rfl⟩, rfl, rfl, by ring, rfl, rfl⟩
    · simp only [TradeSimulator.simulateTradeSilent, hfe, jsTruthy, ne_eq,
        h0, not_false_iff, decide_True, eq_self_iff_true, if_true,
        TradeSimulator.finishTrade, TradeSimulator.updateBalance,
        Option.some.injEq, Prod.mk.injEq]
      exact ⟨_, _, _, ⟨rfl, rfl⟩, rfl, rfl, by ring, rfl, rfl⟩

/-- Witness for C5 on the `sigEx`/`barTP` fixture. -/
theorem balance_update_and_daily_record_witness :
    ∃ t st' dr, TradeSimulator.simulateTradeSilent cfgEx
        (TradeSimulator.initState cfgEx) sigEx [barTP] = some (t, st') ∧
      st'.currentBalance = MathUtils.round
        ((TradeSimulator.initState cfgEx).currentBalance + t.resultUSD) 2 ∧
      st'.dailyResults = (TradeSimulator.initState cfgEx).dailyResults ++
        [(sigEx.date, dr)] ∧
      dr.balanceAfter = dr.balanceBefore + t.resultUSD ∧
      dr.balanceAfter = st'.currentBalance ∧
      t.positionSize = (TradeSimulator.initState cfgEx).currentBalance *
        cfgEx.leverage :=
  balance_update_and_daily_record cfgEx (TradeSimulator.initState cfgEx)
    sigEx [barTP] (List.cons_ne_nil _ _)

end Backtest

namespace Backtest

/-- Helper: any breakout record returned by `detectBreakout` carries the
candle's close as entry price. -/
theorem detectBreakout_entryPrice (c : Candle) (dh dl : Option ℚ)
    (b : Breakout) (hb : BreakoutStrategy.detectBreakout c dh dl = some b) :
    b.entryPrice = c.close := by
  simp only [BreakoutStrategy.detectBreakout] at hb
  split_ifs at hb <;>
    first
      | exact Option.noConfusion hb
      | (obtain rfl := Option.some.inj hb; rfl)

/-- Helper: an emitted signal carries the probed date, the probed candle
and that candle's close as entry price. -/
theorem shouldOpenTrade_some_fields (dl : List (ℕ × DayLevels))
    (c : Candle) (d : ℕ) (ts : List Signal) (s : Signal)
    (hs : BreakoutStrategy.shouldOpenTrade dl c d ts = some s) :
    s.date = d ∧ s.candle = c ∧ s.entryPrice = c.close := by
  unfold BreakoutStrategy.shouldOpenTrade at hs
  by_cases hts : ts.length > 0
  · simp [hts] at hs
  · rcases hlk : dl.lookup d with _ | dayData
    · simp [hts, hlk] at hs
    · by_cases hpl : jsTruthy dayData.previousHigh ∧ jsTruthy dayData.previousLow
      · rcases hdb : BreakoutStrategy.detectBreakout c dayData.previousHigh
            dayData.previousLow with _ | b
        · simp [hts, hlk, hpl.1, hpl.2, hdb] at hs
        · rcases hdir : b.direction with _ | dir
          · simp [hts, hlk, hpl.1, hpl.2, hdb, hdir] at hs
          · simp [hts, hlk, hpl.1, hpl.2, hdb, hdir,
              Option.some.injEq] at hs
            obtain rfl := hs.symm
            exact ⟨rfl, rfl, detectBreakout_entryPrice c _ _ b hdb⟩
      · simp [hts, hlk, hpl] at hs

end Backtest

namespace Backtest

/-- C7. When `bar.high > previousHigh` (both levels non-null, here
nonzero, as JS truthiness demands), the detector decides on the
high-breakout branch alone — the result does not depend on the
previous-low level at all, even when `bar.low < previousLow` also
holds; a body with open or close exactly at the level yields no
direction, and then the scheduler emits no signal for that bar; and
every signal `shouldOpenTrade` ever emits carries the bar's close as
entry price. -/
theorem detectBreakout_high_branch_priority (c : Candle) (hv lv lv' : ℚ)
    (hhv : hv ≠ 0) (hlv : lv ≠ 0) (hlv' : lv' ≠ 0) (hbr : c.high > hv) :
    (BreakoutStrategy.detectBreakout c (some hv) (some lv) =
      BreakoutStrategy.detectBreakout c (some hv) (some lv')) ∧
    (∃ b, BreakoutStrategy.detectBreakout c (some hv) (some lv) = some b ∧
      b.btype = some BreakoutType.BREAKOUT_HIGH ∧
      b.entryPrice = c.close ∧
      ((c.openPrice = hv ∨ c.close = hv) → b.direction = none)) ∧
    (∀ (dl : List (ℕ × DayLevels)) (d : ℕ) (dd : DayLevels),
      dl.lookup d = some dd → dd.previousHigh = some hv →
      dd.previousLow = some lv → (c.openPrice = hv ∨ c.close = hv) →
      BreakoutStrategy.shouldOpenTrade dl c d [] = none) ∧
    (∀ (dl : List (ℕ × DayLevels)) (d : ℕ) (ts : List Signal)
        (c2 : Candle) (s : Signal),
      BreakoutStrategy.shouldOpenTrade dl c2 d ts = some s →
      s.entryPrice = c2.close) := by
  have hdir : ∀ (hcase : c.openPrice = hv ∨ c.close = hv),
      (if c.openPrice > hv ∧ c.close > hv then some Direction.LONG
       else if c.openPrice < hv ∧ c.close < hv then some Direction.SHORT
       else none) = none := by
    intro hcase
    rcases hcase with hcase | hcase <;> simp [hcase, lt_irrefl]
  refine ⟨?_, ?_, ?_, ?_⟩
  · simp [BreakoutStrategy.detectBreakout, jsTruthy, hhv, hlv, hlv', hbr]
  · simp [BreakoutStrategy.detectBreakout, jsTruthy, hhv, hlv, hbr]
    exact hdir
  · intro dl d dd hlk hph hpl hcase
    simp [BreakoutStrategy.shouldOpenTrade, hlk, hph, hpl, jsTruthy, hhv,
      hlv, BreakoutStrategy.detectBreakout, hbr, hdir hcase]
  · intro dl d ts c2 s hs
    exact (shouldOpenTrade_some_fields dl c2 d ts s hs).2.2

/-- Witness for C7: `candleBreak` pierces the previous high 110; the
previous low is irrelevant (90 versus 91). -/
theorem detectBreakout_high_branch_priority_witness :
    BreakoutStrategy.detectBreakout candleBreak (some 110) (some 90) =
      BreakoutStrategy.detectBreakout candleBreak (some 110) (some 91) :=
  (detectBreakout_high_branch_priority candleBreak 110 90 91 (by norm_num)
    (by norm_num) (by norm_num) (by norm_num [candleBreak])).1

end Backtest

namespace Backtest

/-- Helper: signals emitted by the scheduler loop have unmarked dates,
and their date list is duplicate-free (at most one signal per calendar
date). -/
theorem processLoop_dates_nodup (L : List (ℕ × DayLevels)) :
    ∀ (cs : List Candle) (marked : List ℕ),
      (∀ s ∈ BreakoutStrategy.processLoop L marked cs, s.date ∉ marked) ∧
      ((BreakoutStrategy.processLoop L marked cs).map fun s => s.date).Nodup := by
  intro cs
  induction cs with
  | nil => intro marked; simp [BreakoutStrategy.processLoop]
  | cons c rest ih =>
    intro marked
    by_cases hm : DateUtils.getDateOnly c.openTime ∈ marked
    · simpa [BreakoutStrategy.processLoop, hm] using ih marked
    · rcases hso : BreakoutStrategy.shouldOpenTrade L c
          (DateUtils.getDateOnly c.openTime) [] with _ | sig
      · simpa [BreakoutStrategy.processLoop, hm, hso] using ih marked
      · obtain ⟨hdate, hcand, _⟩ := shouldOpenTrade_some_fields _ _ _ _ _ hso
        have ihm := ih (DateUtils.getDateOnly c.openTime :: marked)
        constructor
        · intro s hs
          rw [BreakoutStrategy.processLoop] at hs
          simp only [hm, if_neg, if_false, hso] at hs
          rcases List.mem_cons.mp hs with rfl | hs'
          · rw [hdate]; exact hm
          · exact fun hin => ihm.1 s hs' (List.mem_cons_of_mem _ hin)
        · rw [BreakoutStrategy.processLoop]
          simp only [hm, if_neg, if_false, hso, List.map_cons]
          refine List.nodup_cons.mpr ⟨?_, ihm.2⟩
          intro hmem
          obtain ⟨s, hs, hds⟩ := List.mem_map.mp hmem
          exact ihm.1 s hs (hds ▸ hdate ▸ List.mem_cons_self _ _)

/-- Helper: the candles that produced the emitted signals form an
order-preserving sublist of the scanned candles. -/
theorem processLoop_candles_sublist (L : List (ℕ × DayLevels)) :
    ∀ (cs : List Candle) (marked : List ℕ),
      ((BreakoutStrategy.processLoop L marked cs).map fun s => s.candle).Sublist cs := by
  intro cs
  induction cs with
  | nil => intro marked; simp [BreakoutStrategy.processLoop]
  | cons c rest ih =>
    intro marked
    by_cases hm : DateUtils.getDateOnly c.openTime ∈ marked
    · simp only [BreakoutStrategy.processLoop, hm, if_pos]
      exact (ih marked).cons c
    · rcases hso : BreakoutStrategy.shouldOpenTrade L c
          (DateUtils.getDateOnly c.openTime) [] with _ | sig
      · simp only [BreakoutStrategy.processLoop, hm, if_neg, if_false, hso]
        exact (ih marked).cons c
      · obtain ⟨_, hcand, _⟩ := shouldOpenTrade_some_fields _ _ _ _ _ hso
        simp only [BreakoutStrategy.processLoop, hm, if_neg, if_false, hso,
          List.map_cons, hcand]
        exact (ih _).cons₂ c

/-- Helper: if no candle of some calendar date can produce a signal, no
emitted signal carries that date. -/
theorem processLoop_date_excluded (L : List (ℕ × DayLevels)) (d0 : ℕ) :
    ∀ (cs : List Candle) (marked : List ℕ),
      (∀ c ∈ cs, DateUtils.getDateOnly c.openTime = d0 →
        BreakoutStrategy.shouldOpenTrade L c
          (DateUtils.getDateOnly c.openTime) [] = none) →
      ∀ s ∈ BreakoutStrategy.processLoop L marked cs, s.date ≠ d0 := by
  intro cs
  induction cs with
  | nil => intro marked _; simp [BreakoutStrategy.processLoop]
  | cons c rest ih =>
    intro marked hnone s hs
    have hrest : ∀ c' ∈ rest, DateUtils.getDateOnly c'.openTime = d0 →
        BreakoutStrategy.shouldOpenTrade L c'
          (DateUtils.getDateOnly c'.openTime) [] = none :=
      fun c' hc' => hnone c' (List.mem_cons_of_mem _ hc')
    by_cases hm : DateUtils.getDateOnly c.openTime ∈ marked
    · rw [BreakoutStrategy.processLoop] at hs
      simp only [hm, if_pos] at hs
      exact ih marked hrest s hs
    · rcases hso : BreakoutStrategy.shouldOpenTrade L c
          (DateUtils.getDateOnly c.openTime) [] with _ | sig
      · rw [BreakoutStrategy.processLoop] at hs
        simp only [hm, if_neg, if_false, hso] at hs
        exact ih marked hrest s hs
      · rw [BreakoutStrategy.processLoop] at hs
        simp only [hm, if_neg, if_false, hso] at hs
        rcases List.mem_cons.mp hs with rfl | hs'
        · obtain ⟨hdate, _, _⟩ := shouldOpenTrade_some_fields _ _ _ _ _ hso
          intro hd0
          have := hnone c (List.mem_cons_self _ _) (by rw [← hdate, hd0])
          rw [this] at hso
          exact Option.noConfusion hso
        · exact ih _ hrest s hs'

end Backtest

namespace Backtest

/-- Helper: under strictly increasing open times, the first sorted
calendar date is the first candle's date. -/
theorem sortedDates_head (candles : List Candle) (c0 : Candle)
    (hh : candles.head? = some c0)
    (hp : candles.Pairwise fun a b => a.openTime < b.openTime) :
    ∃ ds, BreakoutStrategy.sortedDates candles =
      DateUtils.getDateOnly c0.openTime :: ds := by
  rcases candles with _ | ⟨c, rest⟩
  · exact absurd hh (by simp)
  · rw [List.head?_cons, Option.some.injEq] at hh
    have hh2 : c0 = c := hh.symm
    subst hh2
    have hmem : DateUtils.getDateOnly c0.openTime ∈
        BreakoutStrategy.sortedDates (c0 :: rest) := by
      rw [BreakoutStrategy.sortedDates, List.mem_insertionSort,
        List.mem_dedup]
      exact List.mem_map.mpr ⟨c0, List.mem_cons_self _ _, rfl⟩
    have hle : ∀ d ∈ BreakoutStrategy.sortedDates (c0 :: rest),
        DateUtils.getDateOnly c0.openTime ≤ d := by
      intro d hd
      rw [BreakoutStrategy.sortedDates, List.mem_insertionSort,
        List.mem_dedup] at hd
      obtain ⟨c, hc, rfl⟩ := List.mem_map.mp hd
      rcases List.mem_cons.mp hc with rfl | hin
      · exact le_refl _
      · have hlt : c0.openTime < c.openTime :=
          (List.pairwise_cons.mp hp).1 c hin
        exact Nat.div_le_div_right (le_of_lt hlt)
    have hsorted : List.Sorted (· ≤ ·)
        (BreakoutStrategy.sortedDates (c0 :: rest)) :=
      List.sorted_insertionSort _ _
    rcases hs : BreakoutStrategy.sortedDates (c0 :: rest) with _ | ⟨dh, ds⟩
    · rw [hs] at hmem
      exact absurd hmem (List.not_mem_nil _)
    · refine ⟨ds, ?_⟩
      rw [hs] at hmem hle hsorted
      have h1 : DateUtils.getDateOnly c0.openTime ≤ dh :=
        hle dh (List.mem_cons_self _ _)
      have h2 : dh ≤ DateUtils.getDateOnly c0.openTime := by
        rcases List.mem_cons.mp hmem with heq | hin
        · exact le_of_eq heq.symm
        · exact List.rel_of_sorted_cons hsorted _ hin
      rw [Nat.le_antisymm h2 h1]

end Backtest

namespace Backtest

/-- Helper: the levels entry of the first sorted date has a null
previous-day high (`i = 0` in the `calculateDailyLevels` loop). -/
theorem lookup_calculateDailyLevels_first (candles : List Candle)
    (d0 : ℕ) (ds : List ℕ)
    (hs : BreakoutStrategy.sortedDates candles = d0 :: ds) :
    ∃ lv, (BreakoutStrategy.calculateDailyLevels candles).lookup d0 =
        some lv ∧ lv.previousHigh = none := by
  unfold BreakoutStrategy.calculateDailyLevels
  rw [hs]
  simp [BreakoutStrategy.buildLevels, List.lookup]

/-- Helper: no candle of the first calendar date can produce a signal —
its previous-day levels are null. -/
theorem shouldOpenTrade_none_on_first_date (candles : List Candle)
    (c0 : Candle) (hh : candles.head? = some c0)
    (hp : candles.Pairwise fun a b => a.openTime < b.openTime) :
    ∀ c ∈ candles,
      DateUtils.getDateOnly c.openTime = DateUtils.getDateOnly c0.openTime →
      BreakoutStrategy.shouldOpenTrade
        (BreakoutStrategy.calculateDailyLevels candles) c
        (DateUtils.getDateOnly c.openTime) [] = none := by
  obtain ⟨ds, hsd⟩ := sortedDates_head candles c0 hh hp
  obtain ⟨lv, hlk, hph⟩ := lookup_calculateDailyLevels_first candles _ ds hsd
  intro c _ hdc
  rw [hdc]
  simp [BreakoutStrategy.shouldOpenTrade, hlk, hph, jsTruthy]

/-- C6. Under the input invariant of strictly increasing open times, the
scheduler emits a date-unique signal list (at most one signal per
calendar date — once a date has a signal, every later bar of that date,
including opposite-direction breakouts, is suppressed), the signals are
in chronological order, and the first calendar date of the series never
carries a signal (its previous-day levels are null). -/
theorem processCandles_scheduling_invariants (candles : List Candle)
    (hp : candles.Pairwise fun a b => a.openTime < b.openTime) :
    (((BreakoutStrategy.processCandles candles).map fun s => s.date).Nodup) ∧
    (((BreakoutStrategy.processCandles candles).map
        fun s => s.candle.openTime).Pairwise (· < ·)) ∧
    (∀ c0, candles.head? = some c0 →
      ∀ s ∈ BreakoutStrategy.processCandles candles,
        s.date ≠ DateUtils.getDateOnly c0.openTime) := by
  refine ⟨(processLoop_dates_nodup _ candles []).2, ?_, ?_⟩
  · have hsub := processLoop_candles_sublist
      (BreakoutStrategy.calculateDailyLevels candles) candles []
    have hpw : ((BreakoutStrategy.processCandles candles).map
        fun s => s.candle).Pairwise fun a b => a.openTime < b.openTime :=
      hp.sublist hsub
    rw [List.pairwise_map] at hpw
    rw [List.pairwise_map]
    exact hpw
  · intro c0 hh s hs
    exact processLoop_date_excluded _ _ candles []
      (shouldOpenTrade_none_on_first_date candles c0 hh hp) s hs

/-- Witness for C6: two flat day-0 candles followed by a day-1 breakout
bar and a later day-1 bar that would break the previous low in the
opposite direction. -/
theorem processCandles_scheduling_invariants_witness :
    (((BreakoutStrategy.processCandles
        [candleD0a, candleD0b, candleBreak,
         ⟨msPerDay + msPerHour, 112, 120, 80, 85, 1⟩]).map
        fun s => s.date).Nodup) ∧
    (((BreakoutStrategy.processCandles
        [candleD0a, candleD0b, candleBreak,
         ⟨msPerDay + msPerHour, 112, 120, 80, 85, 1⟩]).map
        fun s => s.candle.openTime).Pairwise (· < ·)) ∧
    (∀ c0, ([candleD0a, candleD0b, candleBreak,
         ⟨msPerDay + msPerHour, 112, 120, 80, 85, 1⟩] : List Candle).head? =
        some c0 →
      ∀ s ∈ BreakoutStrategy.processCandles
          [candleD0a, candleD0b, candleBreak,
           ⟨msPerDay + msPerHour, 112, 120, 80, 85, 1⟩],
        s.date ≠ DateUtils.getDateOnly c0.openTime) :=
  processCandles_scheduling_invariants
    [candleD0a, candleD0b, candleBreak,
     ⟨msPerDay + msPerHour, 112, 120, 80, 85, 1⟩] (by decide)

end Backtest

namespace Backtest

/-- Helper: deduplicating a constant list yields nothing or the single
value. -/
theorem dedup_of_all_eq (d : ℕ) :
    ∀ l : List ℕ, (∀ x ∈ l, x = d) → l.dedup = [] ∨ l.dedup = [d] := by
  intro l
  induction l with
  | nil => intro _; exact Or.inl rfl
  | cons x xs ih =>
    intro hall
    have hx : x = d := hall x (List.mem_cons_self _ _)
    have hxs : ∀ y ∈ xs, y = d := fun y hy => hall y (List.mem_cons_of_mem _ hy)
    by_cases hmem : x ∈ xs
    · rw [List.dedup_cons_of_mem hmem]
      exact ih hxs
    · rw [List.dedup_cons_of_not_mem hmem]
      rcases ih hxs with hnil | hone
      · rw [hnil, hx]
        exact Or.inr rfl
      · exfalso
        have : d ∈ xs.dedup := hone ▸ List.mem_cons_self _ _
        exact hmem (hx ▸ List.mem_dedup.mp this)

/-- Helper: when no candle can produce a signal, the scheduler loop
emits nothing. -/
theorem processLoop_eq_nil (L : List (ℕ × DayLevels)) :
    ∀ (cs : List Candle) (marked : List ℕ),
      (∀ c ∈ cs, BreakoutStrategy.shouldOpenTrade L c
        (DateUtils.getDateOnly c.openTime) [] = none) →
      BreakoutStrategy.processLoop L marked cs = [] := by
  intro cs
  induction cs with
  | nil => intro marked _; rfl
  | cons c rest ih =>
    intro marked hnone
    have hrest := fun c' hc' => hnone c' (List.mem_cons_of_mem _ hc')
    rw [BreakoutStrategy.processLoop]
    by_cases hm : DateUtils.getDateOnly c.openTime ∈ marked
    · simp only [hm, if_pos]
      exact ih marked hrest
    · simp only [hm, if_neg, if_false,
        hnone c (List.mem_cons_self _ _)]
      exact ih marked hrest

/-- Helper: with no signals the engine's day loop leaves the simulator
state untouched and never fails. -/
theorem simulateAllTrades_nil_signals (cfg : Config)
    (candles : List Candle) :
    ∀ (days : List ℕ) (st : SimState),
      BacktestEngine.simulateAllTrades cfg candles [] st days = some st := by
  intro days
  induction days with
  | nil => intro st; rfl
  | cons day rest ih =>
    intro st
    rw [BacktestEngine.simulateAllTrades]
    simp only [List.filter_nil]
    exact ih st

/-- C8 (amended). On an empty or single-calendar-day input the core
raises no error at all: level calculation yields an empty mapping (or a
single entry whose previous-day levels are null), the scheduler emits
zero signals, and the backtest completes normally on the untouched
initial state with zero trades. -/
theorem singleDay_input_runs_without_error (cfg : Config)
    (candles : List Candle) (d : ℕ)
    (hall : ∀ c ∈ candles, DateUtils.getDateOnly c.openTime = d) :
    BreakoutStrategy.processCandles candles = [] ∧
    BacktestEngine.runBacktestCore cfg candles =
      some ([], TradeSimulator.initState cfg,
        TradeSimulator.getTradingStats cfg (TradeSimulator.initState cfg)) := by
  have hdates : BreakoutStrategy.sortedDates candles = [] ∨
      BreakoutStrategy.sortedDates candles = [d] := by
    unfold BreakoutStrategy.sortedDates
    rcases dedup_of_all_eq d
        (candles.map fun c => DateUtils.getDateOnly c.openTime)
        (by intro x hx
            obtain ⟨c, hc, rfl⟩ := List.mem_map.mp hx
            exact hall c hc)
      with hnil | hone
    · rw [hnil]; exact Or.inl rfl
    · rw [hone]; exact Or.inr (by simp [List.insertionSort])
  have hnone : ∀ c ∈ candles, BreakoutStrategy.shouldOpenTrade
      (BreakoutStrategy.calculateDailyLevels candles) c
      (DateUtils.getDateOnly c.openTime) [] = none := by
    intro c hc
    rcases hdates with hnil | hone
    · have : BreakoutStrategy.calculateDailyLevels candles = [] := by
        unfold BreakoutStrategy.calculateDailyLevels
        rw [hnil]
        rfl
      simp [BreakoutStrategy.shouldOpenTrade, this, List.lookup]
    · obtain ⟨lv, hlk, hph⟩ :=
        lookup_calculateDailyLevels_first candles d [] hone
      rw [hall c hc]
      simp [BreakoutStrategy.shouldOpenTrade, hlk, hph, jsTruthy]
  have hsig : BreakoutStrategy.processCandles candles = [] :=
    processLoop_eq_nil _ candles [] hnone
  refine ⟨hsig, ?_⟩
  unfold BacktestEngine.runBacktestCore
  rw [hsig]
  simp only [simulateAllTrades_nil_signals]

/-- Counterexample to C8 as stated: a two-candle single-day input (and
the empty input) make the core complete normally — no "insufficient
data" error is raised anywhere on these inputs (every operation on this
path is total; the embedding's only failure path, `none`, is not
taken), zero signals are produced, and the simulation runs vacuously. -/
theorem insufficient_data_error_counterexample :
    BreakoutStrategy.processCandles [candleD0a, candleD0b] = [] ∧
    (BacktestEngine.runBacktestCore cfgEx [candleD0a, candleD0b]).isSome =
      true ∧
    (BacktestEngine.runBacktestCore cfgEx []).isSome = true := by
  refine ⟨by decide, by decide, by decide⟩

/-- Witness for the amended C8 on the concrete single-day input. -/
theorem singleDay_input_runs_without_error_witness :
    BreakoutStrategy.processCandles [candleD0a, candleD0b] = [] ∧
    BacktestEngine.runBacktestCore cfgEx [candleD0a, candleD0b] =
      some ([], TradeSimulator.initState cfgEx,
        TradeSimulator.getTradingStats cfgEx
          (TradeSimulator.initState cfgEx)) :=
  singleDay_input_runs_without_error cfgEx [candleD0a, candleD0b] 0
    (by decide)

/-- C9. The exported `summary` object has no `profitFactor` field at
all: `formatSummary` writes exactly the eleven fields below (while the
README's documented JSON structure and the engine's final-statistics
printout both expect a profit factor, and the spec's output contract
lists it). -/
theorem formatSummary_has_no_profitFactor (stats : TradingStats) :
    "profitFactor" ∉ (DataFormatter.formatSummaryFields stats).map
      Prod.fst ∧
    (DataFormatter.formatSummaryFields stats).map Prod.fst =
      ["totalTrades", "winningTrades", "losingTrades", "winRate",
       "totalReturn", "totalReturnPercent", "finalBalance", "avgWin",
       "avgLoss", "maxDrawdown", "maxDrawdownPercent"] := by
  refine ⟨?_, rfl⟩
  simp [DataFormatter.formatSummaryFields]

end Backtest
